import Mathlib

/-!
Verification of the step-counter dashboard's normalization and aggregation
pipeline (`src/pages/dashboard.js`).  The repository-owned logic is:
resolving the step count from `steps`/`stepCount`, resolving heterogeneous
timestamp shapes to a single instant, sorting chronologically, and deriving
statistics, chart series and the recent-activity view.  This file embeds
that logic shallowly and proves the specified properties.

Modelling conventions:
- A JavaScript `Date` is either a valid instant carrying its integer time
  value in epoch milliseconds, or an invalid date (`NaN` time value).  The
  model idealizes the JS range clamp (|ms| ≤ 8.64e15): step-count
  timestamps are far inside that range.
- JS numbers that appear in documents are modelled as integers (step
  counts and epoch values are integral in every shape the code handles);
  derived averages use exact rationals.
- Truthiness: a `toDate` member is modelled as present-and-truthy or
  absent (a falsy member behaves exactly like an absent one in the
  `docData.timestamp?.toDate` test); a numeric `seconds` member is truthy
  iff it is nonzero.
- String-to-date parsing (`new Date(string)`) and locale formatting are
  external host behaviour; they are passed as parameters (`parse`, `fmt`).
-/

namespace StepCounter

/-- A JavaScript `Date`: a valid instant with an integer epoch-millisecond
time value, or an invalid date (`NaN` time value). -/
inductive Instant where
  | valid (ms : Int)
  | invalid
  deriving DecidableEq, Repr

/-- The `toDate` member of a timestamp object, when present and truthy:
either a callable returning a date (Firestore `Timestamp.toDate`), or a
truthy non-function value, which the code would call and thereby raise a
`TypeError`. -/
inductive ToDateField where
  | callable (d : Instant)
  | notCallable
  deriving DecidableEq, Repr

/-- The value stored in a raw document's `timestamp` field.  `obj` is a
plain object with an optional truthy `toDate` member and an optional
numeric `seconds` member; `num` and `str` are primitive numbers and
strings; `nullv`/`undef` are `null` and `undefined` (and stand for every
remaining falsy or shapeless value). -/
inductive TimestampValue where
  | obj (toDate : Option ToDateField) (seconds : Option Int)
  | num (ms : Int)
  | str (s : String)
  | nullv
  | undef
  deriving DecidableEq, Repr

/-- Which branch of the timestamp cascade in `fetchData` fired; the code
logs this via `console.log`/`console.warn` in each branch. -/
inductive TsBranch where
  | toDateBranch
  | secondsBranch
  | numberBranch
  | stringBranch
  | fallbackBranch
  deriving DecidableEq, Repr

/-- The timestamp cascade of `fetchData` (dashboard.js lines 63-82):

  if (docData.timestamp?.toDate) { timestamp = docData.timestamp.toDate(); }
  else if (docData.timestamp?.seconds) { timestamp = new Date(docData.timestamp.seconds * 1000); }
  else if (typeof docData.timestamp === 'number') { timestamp = new Date(docData.timestamp); }
  else if (typeof docData.timestamp === 'string') { timestamp = new Date(docData.timestamp); }
  else { timestamp = new Date(); }

Returns `none` when the code raises (a truthy non-callable `toDate` member
makes `docData.timestamp.toDate()` throw a `TypeError`); otherwise the
resolved instant together with the branch that produced it.  The
`?.seconds` test is a truthiness test, so a `seconds` value of `0` falls
through to the final `else`. -/
def resolveTimestamp (parse : String → Instant) (now : Instant) :
    TimestampValue → Option (Instant × TsBranch)
  | .obj (some (.callable d)) _ => some (d, .toDateBranch)
  | .obj (some .notCallable) _ => none
  | .obj none (some s) =>
      if s = 0 then some (now, .fallbackBranch)
      else some (.valid (s * 1000), .secondsBranch)
  | .obj none none => some (now, .fallbackBranch)
  | .num ms => some (.valid ms, .numberBranch)
  | .str s => some (parse s, .stringBranch)
  | .nullv => some (now, .fallbackBranch)
  | .undef => some (now, .fallbackBranch)

/-- The values for which the final `else` (fallback-to-now) branch of the
cascade fires: those failing all four branch tests — no truthy `toDate`
member, no truthy (nonzero) `seconds` member, not a number, not a
string. -/
def isFallbackShape : TimestampValue → Bool
  | .obj none none => true
  | .obj none (some s) => s = 0
  | .nullv => true
  | .undef => true
  | _ => false

/-- Whether a `timestamp` value has a truthy non-callable `toDate` member,
the one case in which the cascade raises instead of producing an
instant. -/
def hasBadToDate : TimestampValue → Bool
  | .obj (some .notCallable) _ => true
  | _ => false

/-- Modelled from the spec (§3): whether a value matches one of the four
defined timestamp shapes — an object exposing a to-calendar-instant
conversion, an object exposing an integer `seconds` field, a number, or a
string.  Used to compare the spec's shape taxonomy with the code's
truthiness-based branch tests. -/
def matchesSpecShape : TimestampValue → Bool
  | .obj (some (.callable _)) _ => true
  | .obj _ (some _) => true
  | .num _ => true
  | .str _ => true
  | _ => false

/-- A raw Firestore document as consumed by `fetchData`: optional integer
`steps` and `stepCount` fields and a `timestamp` value. -/
structure RawDoc where
  id : String
  steps : Option Int
  stepCount : Option Int
  timestamp : TimestampValue
  deriving DecidableEq, Repr

/-- A normalized record as built in `fetchData`'s `map` callback. -/
structure StepRecord where
  id : String
  steps : Int
  timestamp : Instant
  originalTimestamp : TimestampValue
  deriving DecidableEq, Repr

/-- JavaScript `a || b` for an optional numeric field `a`: the field's
value when present and truthy (nonzero), otherwise `b`. -/
def jsOrInt (a : Option Int) (b : Int) : Int :=
  match a with
  | some x => if x = 0 then b else x
  | none => b

/-- The step-count resolution `docData.steps || docData.stepCount || 0`
(dashboard.js line 86). -/
def resolveSteps (d : RawDoc) : Int :=
  jsOrInt d.steps (jsOrInt d.stepCount 0)

/-- The body of `fetchData`'s `map` callback (dashboard.js lines 56-90):
resolve the timestamp and the step count and build the record; `none`
when the timestamp cascade raises. -/
def normalizeDoc (parse : String → Instant) (now : Instant) (d : RawDoc) :
    Option StepRecord :=
  match resolveTimestamp parse now d.timestamp with
  | none => none
  | some (ts, _) =>
      some { id := d.id
             steps := resolveSteps d
             timestamp := ts
             originalTimestamp := d.timestamp }

/-- `snapshot.docs.map(...)` over the whole result set: JS `map` runs the
callback left to right and an exception aborts the whole call, so the
result is `none` as soon as one document raises. -/
def normalize (parse : String → Instant) (now : Instant) :
    List RawDoc → Option (List StepRecord)
  | [] => some []
  | d :: rest =>
      match normalizeDoc parse now d with
      | none => none
      | some r =>
          match normalize parse now rest with
          | none => none
          | some rs => some (r :: rs)

/-- The time value a record contributes to the sort comparator
`(a, b) => a.timestamp - b.timestamp` (dashboard.js line 93).  For an
invalid date the JS difference is `NaN` and ECMAScript leaves the sort
order implementation-defined; the model fixes the arbitrary value 0, and
every sortedness statement below is made for valid instants only. -/
def timeValue : Instant → Int
  | .valid ms => ms
  | .invalid => 0

/-- The boolean form of the sort comparator: record `a` may come before
record `b`. -/
def recordLe (a b : StepRecord) : Bool :=
  timeValue a.timestamp ≤ timeValue b.timestamp

/-- `data.sort((a, b) => a.timestamp - b.timestamp)` (dashboard.js line
93).  ECMAScript `Array.prototype.sort` is stable and, for a consistent
comparator, produces the unique stable order; the embedding uses the
stable `List.mergeSort`. -/
def sortChronological (rs : List StepRecord) : List StepRecord :=
  rs.mergeSort recordLe

/-- A JavaScript number as produced by the statistics arithmetic: `NaN`,
an infinity, or a finite value (modelled exactly as a rational). -/
inductive JSNum where
  | nan
  | posInf
  | negInf
  | val (q : ℚ)
  deriving DecidableEq, Repr

/-- JavaScript division of finite numbers: division by zero yields `NaN`
for a zero numerator and a signed infinity otherwise. -/
def jsDiv (a b : ℚ) : JSNum :=
  if b = 0 then
    if a = 0 then .nan
    else if 0 < a then .posInf
    else .negInf
  else .val (a / b)

/-- JavaScript `Math.round` on a finite value: half-up rounding,
`Math.round(x) = Math.floor(x + 0.5)`. -/
def jsRound (q : ℚ) : Int :=
  ⌊q + 1 / 2⌋

/-- `Math.round` lifted to JS numbers (`Math.round(NaN)` is `NaN` and
infinities are fixed points). -/
def mathRound : JSNum → JSNum
  | .val q => .val (jsRound q)
  | x => x

/-- `stepData.reduce((sum, item) => sum + item.steps, 0)` (dashboard.js
lines 212 and 218). -/
def totalSteps (rs : List StepRecord) : Int :=
  rs.foldl (fun sum item => sum + item.steps) 0

/-- The three statistics cards of the dashboard (lines 204-221). -/
structure Statistics where
  count : Nat
  total : Int
  average : JSNum
  deriving DecidableEq, Repr

/-- The statistics derived from the record set: `stepData.length`, the
`reduce` sum, and `total / count` with JS division semantics. -/
def summarize (rs : List StepRecord) : Statistics :=
  { count := rs.length
    total := totalSteps rs
    average := jsDiv (totalSteps rs) (rs.length : ℚ) }

/-- The average as displayed:
`Math.round(stepData.reduce(...) / stepData.length)` (line 218). -/
def displayedAverage (rs : List StepRecord) : JSNum :=
  mathRound (summarize rs).average

/-- The recent-activity view `stepData.slice(-5).reverse()` (line 227):
`slice(-5)` copies the last five (or all, if fewer) records, and
`reverse` reverses that copy, so the input array is not mutated. -/
def recentActivity (rs : List StepRecord) : List StepRecord :=
  (rs.drop (rs.length - 5)).reverse

/-- The chart input: a label sequence and a value sequence. -/
structure ChartSeries where
  labels : List String
  values : List Int
  deriving DecidableEq, Repr

/-- The `chartData` construction (lines 124-139): labels are the records'
timestamps rendered by `toLocaleTimeString` with hour and minute (passed
as `fmt`, locale formatting being host behaviour), values are the
records' step counts. -/
def toChartSeries (fmt : Instant → String) (rs : List StepRecord) : ChartSeries :=
  { labels := rs.map (fun item => fmt item.timestamp)
    values := rs.map (fun item => item.steps) }

/-- The error raised by the awaited query, as observed in the `catch`
block: its `.message` and its `JSON.stringify(err, null, 2)` rendering. -/
structure FetchError where
  message : String
  details : String
  deriving DecidableEq, Repr

/-- The outcome of `await getDocs(stepsQuery)`: either the query raises,
or it returns a list of documents. -/
inductive FetchOutcome where
  | failure (err : FetchError)
  | success (docs : List RawDoc)
  deriving DecidableEq, Repr

/-- The component state touched by `fetchData`: the `stepData`, `error`,
`debugInfo` and `isLoading` `useState` cells. -/
structure DashState where
  stepData : List StepRecord
  error : String
  debugInfo : String
  isLoading : Bool
  deriving DecidableEq, Repr

/-- The debug message of the empty-result branch (lines 46-49). -/
def noDocsFoundMsg (email : String) : String :=
  "No documents found for user " ++ email ++ ". Check if:\n1. Data exists in Firestore\n2. The \x27userId\x27 field matches exactly\n3. Collection name is \x27steps\x27"

/-- The debug message of the success path (line 98). -/
def successMsg (n : Nat) (latest : String) : String :=
  "Successfully loaded " ++ toString n ++ " records. Latest timestamp: " ++ latest

/-- `data[data.length - 1]?.timestamp.toLocaleString()` (line 98); the
optional chaining renders as the text `undefined` on an empty array. -/
def latestTimestampText (fmtFull : Instant → String) (data : List StepRecord) : String :=
  match data.getLast? with
  | some r => fmtFull r.timestamp
  | none => "undefined"

/-- The message of the `TypeError` raised by calling a truthy
non-callable `toDate` member, and its `JSON.stringify` rendering. -/
def toDateTypeErrorMessage : String :=
  "docData.timestamp.toDate is not a function"

/-- `JSON.stringify` of a `TypeError` has no enumerable own properties. -/
def toDateTypeErrorDetails : String :=
  "\x7b\x7d"

/-- `fetchData` (dashboard.js lines 29-107) as a state transformer.  It
returns early when no user is present; otherwise it clears `error` and
`debugInfo`, and then: on a query failure sets the error and diagnostic
messages, leaving `stepData` untouched; on an empty result stores the
empty record set with a diagnostic message; otherwise maps the documents
through the normalizer — a `TypeError` thrown inside the `map` is caught
by the same `catch` block, again leaving `stepData` untouched — sorts the
records chronologically and stores them.  `finally` clears
`isLoading`. -/
def fetchData (parse : String → Instant) (now : Instant)
    (fmtFull : Instant → String) (user : Option String)
    (st : DashState) (outcome : FetchOutcome) : DashState :=
  match user with
  | none => st
  | some email =>
      let st1 : DashState :=
        { st with isLoading := true, error := "", debugInfo := "" }
      match outcome with
      | .failure err =>
          { st1 with
            error := "Error fetching data: " ++ err.message
            debugInfo := "Error details: " ++ err.details
            isLoading := false }
      | .success docs =>
          if docs.isEmpty then
            { st1 with
              debugInfo := noDocsFoundMsg email
              stepData := []
              isLoading := false }
          else
            match normalize parse now docs with
            | none =>
                { st1 with
                  error := "Error fetching data: " ++ toDateTypeErrorMessage
                  debugInfo := "Error details: " ++ toDateTypeErrorDetails
                  isLoading := false }
            | some data =>
                let sorted := sortChronological data
                { st1 with
                  stepData := sorted
                  debugInfo := successMsg sorted.length
                    (latestTimestampText fmtFull sorted)
                  isLoading := false }

/-- The documents used for the earlier concrete evaluations of the
normalizer: a fallback-shape timestamp and a numeric timestamp. -/
def demoDocs : List RawDoc :=
  [{ id := "d1", steps := some 2, stepCount := none, timestamp := .nullv },
   { id := "d2", steps := none, stepCount := some 9, timestamp := .num 5000 }]

/-- A second document list for concrete evaluations, all four shapes
well-formed. -/
def demoDocs2 : List RawDoc :=
  [{ id := "e1", steps := some 4, stepCount := none,
     timestamp := .obj (some (.callable (.valid 1000))) none },
   { id := "e2", steps := some 6, stepCount := none, timestamp := .str "2024-01-01" }]

/-- A document whose `timestamp` carries a truthy non-callable `toDate`
member and nothing else: calling it raises a `TypeError`. -/
def badToDateDoc : RawDoc :=
  { id := "b", steps := some 3, stepCount := none,
    timestamp := .obj (some .notCallable) none }

/-- A second document with a truthy non-callable `toDate` member, here
alongside a `seconds` field that never gets a chance to be read. -/
def badToDateDoc2 : RawDoc :=
  { id := "c", steps := none, stepCount := some 2,
    timestamp := .obj (some .notCallable) (some 7) }

/-- A concrete host parse function for concrete evaluations: every string
parses to an invalid date. -/
def demoParse : String → Instant := fun _ => Instant.invalid

/-- A concrete normalization-time clock for concrete evaluations. -/
def demoNow : Instant := Instant.valid 999

/-- A concrete locale formatter for concrete evaluations. -/
def demoFmt : Instant → String := fun _ => "12:00"

/-- A truthy optional integer field absorbs the right operand of `||`:
`some c || 0` is `c` whether or not `c` is zero. -/
theorem jsOrInt_some_zero (c : Int) : jsOrInt (some c) 0 = c := by
  by_cases h : c = 0 <;> simp [jsOrInt, h]

/-- C1 (counterexample): a document whose `steps` field is present with
value `0` and whose `stepCount` is `5` resolves to `5`, not to the
`steps` field's value `0` — `docData.steps || docData.stepCount || 0`
tests truthiness, not presence. -/
theorem c1_counterexample :
    ({ id := "a", steps := some 0, stepCount := some 5,
       timestamp := TimestampValue.num 0 } : RawDoc).steps = some 0 ∧
    resolveSteps
      { id := "a", steps := some 0, stepCount := some 5,
        timestamp := TimestampValue.num 0 } = 5 ∧ (5 : Int) ≠ 0 :=
  ⟨rfl, rfl, by decide⟩

/-- C1 (amended): the resolved step count is the `steps` field when it is
present and nonzero; when `steps` is absent or zero and `stepCount` is
present, it is `stepCount`; when the remaining field is also absent it
is 0. -/
theorem c1_steps_resolution (d : RawDoc) :
    (∀ s, d.steps = some s → s ≠ 0 → resolveSteps d = s) ∧
    (∀ c, d.steps = none ∨ d.steps = some 0 → d.stepCount = some c →
      resolveSteps d = c) ∧
    (d.steps = none → d.stepCount = none → resolveSteps d = 0) ∧
    (d.steps = some 0 → d.stepCount = none → resolveSteps d = 0) := by
  refine ⟨?_, ?_, ?_, ?_⟩
  · intro s hs hne
    simp [resolveSteps, jsOrInt, hs, hne]
  · intro c hsteps hc
    rcases hsteps with h | h <;>
        simp [resolveSteps, jsOrInt, h, hc, jsOrInt_some_zero] <;>
      omega
  · intro h1 h2
    simp [resolveSteps, jsOrInt, h1, h2]
  · intro h1 h2
    simp [resolveSteps, jsOrInt, h1, h2]

/-- C1 (witness): a document with no `steps` field and `stepCount = 4`
resolves to 4. -/
theorem c1_witness :
    resolveSteps
      { id := "w", steps := none, stepCount := some 4,
        timestamp := TimestampValue.nullv } = 4 :=
  (c1_steps_resolution _).2.1 4 (Or.inl rfl) rfl

/-- C2 (counterexample): the timestamp object with integer `seconds`
attribute `0` (and no `toDate`) resolves to the current time, not to
epoch millisecond `0·1000` — `docData.timestamp?.seconds` is a
truthiness test, so `seconds: 0` falls through to the fallback. -/
theorem c2_counterexample :
    resolveTimestamp demoParse demoNow (.obj none (some 0)) =
      some (Instant.valid 999, TsBranch.fallbackBranch) ∧
    Instant.valid 999 ≠ Instant.valid (0 * 1000) :=
  ⟨rfl, by decide⟩

/-- C2 (amended): for every raw timestamp that is an object with no
truthy `toDate` member and a nonzero integer `seconds` attribute, the
resolved instant is epoch plus `seconds`·1000 milliseconds. -/
theorem c2_seconds_shape (parse : String → Instant) (now : Instant)
    (s : Int) (h : s ≠ 0) :
    resolveTimestamp parse now (.obj none (some s)) =
      some (.valid (s * 1000), .secondsBranch) := by
  simp [resolveTimestamp, h]

/-- C2 (witness): `seconds: 1700000000` resolves to epoch millisecond
1700000000000. -/
theorem c2_witness :
    resolveTimestamp demoParse demoNow (.obj none (some 1700000000)) =
      some (.valid 1700000000000, .secondsBranch) :=
  c2_seconds_shape demoParse demoNow 1700000000 (by decide)

/-- C10 (counterexample): the value with `seconds: 0` matches the spec's
second defined shape (an object exposing an integer `seconds` field),
yet the current-time fallback fires for it — so the fallback does not
fire only for values matching none of the four defined shapes. -/
theorem c10_counterexample :
    matchesSpecShape (.obj none (some 0)) = true ∧
    resolveTimestamp demoParse demoNow (.obj none (some 0)) =
      some (demoNow, .fallbackBranch) ∧
    demoNow = Instant.valid 999 :=
  ⟨rfl, rfl, rfl⟩

/-- C10 (amended): a string timestamp always resolves to the parse of
that string, even when the parse yields an invalid instant; and the
current-time fallback fires exactly for the values failing all four of
the code's branch tests — no truthy `toDate` member, no truthy (nonzero)
`seconds` member, not a number, not a string — a set that includes the
object whose `seconds` field is 0. -/
theorem c10_string_and_fallback (parse : String → Instant) (now : Instant) :
    (∀ s, resolveTimestamp parse now (.str s) = some (parse s, .stringBranch)) ∧
    (∀ s, parse s = .invalid →
      resolveTimestamp parse now (.str s) = some (.invalid, .stringBranch)) ∧
    (∀ v r b, resolveTimestamp parse now v = some (r, b) →
      (b = .fallbackBranch ↔ isFallbackShape v = true)) ∧
    (∀ v r b, resolveTimestamp parse now v = some (r, b) →
      b = .fallbackBranch → r = now) := by
  refine ⟨fun s => rfl, ?_, ?_, ?_⟩
  · intro s h
    simp [resolveTimestamp, h]
  · intro v r b h
    rcases v with ⟨td, sec⟩ | ms | s | _ | _
    · rcases td with _ | f
      · rcases sec with _ | s
        · simp [resolveTimestamp] at h
          rcases h with ⟨-, h2⟩
          subst h2
          simp [isFallbackShape]
        · by_cases hs : s = 0
          · subst hs
            simp [resolveTimestamp] at h
            rcases h with ⟨-, h2⟩
            subst h2
            simp [isFallbackShape]
          · simp [resolveTimestamp, hs] at h
            rcases h with ⟨-, h2⟩
            subst h2
            simp [isFallbackShape, hs]
      · rcases f with d | _
        · simp [resolveTimestamp] at h
          rcases h with ⟨-, h2⟩
          subst h2
          simp [isFallbackShape]
        · simp [resolveTimestamp] at h
    · simp [resolveTimestamp] at h
      rcases h with ⟨-, h2⟩
      subst h2
      simp [isFallbackShape]
    · simp [resolveTimestamp] at h
      rcases h with ⟨-, h2⟩
      subst h2
      simp [isFallbackShape]
    · simp [resolveTimestamp] at h
      rcases h with ⟨-, h2⟩
      subst h2
      simp [isFallbackShape]
    · simp [resolveTimestamp] at h
      rcases h with ⟨-, h2⟩
      subst h2
      simp [isFallbackShape]
  · intro v r b h hb
    subst hb
    rcases v with ⟨td, sec⟩ | ms | s | _ | _
    · rcases td with _ | f
      · rcases sec with _ | s
        · simp [resolveTimestamp] at h
          exact h.symm
        · by_cases hs : s = 0
          · subst hs
            simp [resolveTimestamp] at h
            exact h.symm
          · simp [resolveTimestamp, hs] at h
      · rcases f with d | _ <;> simp [resolveTimestamp] at h
    · simp [resolveTimestamp] at h
    · simp [resolveTimestamp] at h
    · simp [resolveTimestamp] at h
      exact h.symm
    · simp [resolveTimestamp] at h
      exact h.symm

/-- C10 (witness): an unparseable string yields the invalid instant via
the string branch, not the current-time fallback. -/
theorem c10_witness :
    resolveTimestamp demoParse demoNow (.str "not-a-date") =
      some (.invalid, .stringBranch) :=
  (c10_string_and_fallback demoParse demoNow).2.1 "not-a-date" rfl

/-- The timestamp cascade succeeds on every value without a truthy
non-callable `toDate` member. -/
theorem resolveTimestamp_isSome (parse : String → Instant) (now : Instant)
    (v : TimestampValue) (h : hasBadToDate v = false) :
    (resolveTimestamp parse now v).isSome = true := by
  rcases v with ⟨td, sec⟩ | ms | s | _ | _
  · rcases td with _ | f
    · rcases sec with _ | s
      · simp [resolveTimestamp]
      · by_cases hs : s = 0 <;> simp [resolveTimestamp, hs]
    · rcases f with d | _
      · simp [resolveTimestamp]
      · simp [hasBadToDate] at h
  · simp [resolveTimestamp]
  · simp [resolveTimestamp]
  · simp [resolveTimestamp]
  · simp [resolveTimestamp]

/-- Whenever the normalizer runs to completion, its output has the same
length as its input. -/
theorem normalize_length (parse : String → Instant) (now : Instant) :
    ∀ (docs : List RawDoc) (out : List StepRecord),
      normalize parse now docs = some out → out.length = docs.length := by
  intro docs
  induction docs with
  | nil =>
      intro out h
      simp [normalize] at h
      simp [← h]
  | cons d rest ih =>
      intro out h
      simp only [normalize] at h
      cases hd : normalizeDoc parse now d with
      | none => rw [hd] at h; exact absurd h (by simp)
      | some r =>
          rw [hd] at h
          cases hr : normalize parse now rest with
          | none => rw [hr] at h; exact absurd h (by simp)
          | some rs =>
              rw [hr] at h
              simp only [Option.some.injEq] at h
              subst h
              simp [ih rs hr]

/-- The normalizer runs to completion on every document list without a
truthy non-callable `toDate` member. -/
theorem normalize_total (parse : String → Instant) (now : Instant) :
    ∀ docs : List RawDoc, (∀ d ∈ docs, hasBadToDate d.timestamp = false) →
      ∃ out, normalize parse now docs = some out := by
  intro docs
  induction docs with
  | nil => exact fun _ => ⟨[], rfl⟩
  | cons d rest ih =>
      intro h
      have hd : (normalizeDoc parse now d).isSome = true := by
        have := resolveTimestamp_isSome parse now d.timestamp
          (h d (by simp))
        rw [normalizeDoc]
        cases hres : resolveTimestamp parse now d.timestamp with
        | none => rw [hres] at this; simp at this
        | some p => rcases p with ⟨ts, b⟩; simp
      obtain ⟨r, hr⟩ := Option.isSome_iff_exists.mp hd
      obtain ⟨out, hout⟩ := ih (fun x hx => h x (by simp [hx]))
      exact ⟨r :: out, by simp [normalize, hr, hout]⟩

/-- C3 (counterexample): a document whose `timestamp` is an object with a
truthy non-callable `toDate` member matches none of the spec's four
shapes, yet it is not emitted with the current time: the normalizer
raises and produces no output sequence at all. -/
theorem c3_counterexample :
    matchesSpecShape badToDateDoc.timestamp = false ∧
    normalize demoParse demoNow [badToDateDoc] = none ∧
    ∀ out, normalize demoParse demoNow [badToDateDoc] ≠ some out := by
  refine ⟨rfl, rfl, ?_⟩
  intro out h
  rw [show normalize demoParse demoNow [badToDateDoc] = none from rfl] at h
  exact Option.noConfusion h

/-- C3 (amended): for every document list in which no timestamp has a
truthy non-callable `toDate` member, normalization produces an output
sequence of exactly the same length as the input, and every listed
document whose timestamp matches none of the four defined shapes is
still emitted, with the current wall-clock time as its instant. -/
theorem c3_length_preservation (parse : String → Instant) (now : Instant)
    (docs : List RawDoc) (h : ∀ d ∈ docs, hasBadToDate d.timestamp = false) :
    (∃ out, normalize parse now docs = some out ∧ out.length = docs.length) ∧
    (∀ d ∈ docs, matchesSpecShape d.timestamp = false →
      ∃ r, normalizeDoc parse now d = some r ∧ r.timestamp = now) := by
  constructor
  · obtain ⟨out, hout⟩ := normalize_total parse now docs h
    exact ⟨out, hout, normalize_length parse now docs out hout⟩
  · intro d hd hshape
    have hbad := h d hd
    rcases hv : d.timestamp with ⟨td, sec⟩ | ms | s | _ | _
    · rcases td with _ | f
      · rcases sec with _ | s
        · refine ⟨⟨d.id, resolveSteps d, now, d.timestamp⟩, ?_, rfl⟩
          simp [normalizeDoc, hv, resolveTimestamp]
        · rw [hv] at hshape
          simp [matchesSpecShape] at hshape
      · rcases f with dd | _
        · rw [hv] at hshape
          simp [matchesSpecShape] at hshape
        · rw [hv] at hbad
          simp [hasBadToDate] at hbad
    · rw [hv] at hshape
      simp [matchesSpecShape] at hshape
    · rw [hv] at hshape
      simp [matchesSpecShape] at hshape
    · refine ⟨⟨d.id, resolveSteps d, now, d.timestamp⟩, ?_, rfl⟩
      simp [normalizeDoc, hv, resolveTimestamp]
    · refine ⟨⟨d.id, resolveSteps d, now, d.timestamp⟩, ?_, rfl⟩
      simp [normalizeDoc, hv, resolveTimestamp]

/-- C3 (witness): on a concrete two-document list with a fallback-shape
timestamp and a numeric timestamp, normalization yields an output of the
same length. -/
theorem c3_witness :
    ∃ out, normalize demoParse demoNow demoDocs = some out ∧
      out.length = demoDocs.length :=
  (c3_length_preservation demoParse demoNow demoDocs (by decide)).1

/-- C8 (counterexample): normalization is not total — on a document whose
`timestamp` object carries a truthy non-callable `toDate` member (here
alongside a `seconds` field), `docData.timestamp.toDate()` raises a
`TypeError` and no output is produced. -/
theorem c8_counterexample :
    normalize demoParse demoNow [badToDateDoc2] = none ∧
    (normalize demoParse demoNow [badToDateDoc2]).isSome = false :=
  ⟨rfl, rfl⟩

/-- C8 (amended): for every raw document list in which no timestamp has a
truthy non-callable `toDate` member, the normalizer runs to completion,
and whenever it completes its output has the same length as the
input. -/
theorem c8_normalization_total (parse : String → Instant) (now : Instant)
    (docs : List RawDoc) (h : ∀ d ∈ docs, hasBadToDate d.timestamp = false) :
    (normalize parse now docs).isSome = true ∧
    ∀ out, normalize parse now docs = some out → out.length = docs.length := by
  constructor
  · obtain ⟨out, hout⟩ := normalize_total parse now docs h
    simp [hout]
  · exact normalize_length parse now docs

/-- C8 (witness): the normalizer completes on a concrete list covering
the `toDate` and string shapes. -/
theorem c8_witness :
    (normalize demoParse demoNow demoDocs2).isSome = true :=
  (c8_normalization_total demoParse demoNow demoDocs2 (by decide)).1

/-- The sort comparator is transitive. -/
theorem recordLe_trans (a b c : StepRecord) :
    recordLe a b → recordLe b c → recordLe a c := by
  simp only [recordLe, decide_eq_true_eq]
  omega

/-- The sort comparator is total. -/
theorem recordLe_total (a b : StepRecord) :
    recordLe a b || recordLe b a := by
  simp only [recordLe, Bool.or_eq_true, decide_eq_true_eq]
  omega

/-- C4: the chronological sort of any sequence of records with valid
instants is non-decreasing in the underlying time value, is a
permutation of the input, and is stable: the records carrying any fixed
time value appear in the output exactly in their input order. -/
theorem c4_sort_chronological (rs : List StepRecord)
    (_valid : ∀ r ∈ rs, r.timestamp ≠ Instant.invalid) :
    (sortChronological rs).Pairwise
      (fun a b => timeValue a.timestamp ≤ timeValue b.timestamp) ∧
    (sortChronological rs).Perm rs ∧
    ∀ k : Int,
      (sortChronological rs).filter (fun r => timeValue r.timestamp == k) =
        rs.filter (fun r => timeValue r.timestamp == k) := by
  refine ⟨?_, List.mergeSort_perm rs recordLe, ?_⟩
  · have hs := @List.sorted_mergeSort StepRecord recordLe
      recordLe_trans recordLe_total rs
    exact hs.imp (by
      intro a b hab
      simpa [recordLe] using hab)
  · intro k
    have hmem : ∀ x ∈ rs.filter (fun r => timeValue r.timestamp == k),
        timeValue x.timestamp == k :=
      fun x hx => by simpa using List.of_mem_filter hx
    have hpw : (rs.filter (fun r => timeValue r.timestamp == k)).Pairwise
        (fun a b => recordLe a b = true) := by
      apply List.pairwise_of_forall_mem_list
      intro a ha b hb
      have h1 := List.of_mem_filter ha
      have h2 := List.of_mem_filter hb
      simp only [beq_iff_eq] at h1 h2
      simp [recordLe, h1, h2]
    have hsub : (rs.filter (fun r => timeValue r.timestamp == k)).Sublist
        (rs.mergeSort recordLe) :=
      List.sublist_mergeSort recordLe_trans recordLe_total hpw
        (List.filter_sublist rs)
    have hsub2 := hsub.filter (fun r => timeValue r.timestamp == k)
    rw [List.filter_eq_self.mpr hmem] at hsub2
    have hperm : ((rs.mergeSort recordLe).filter
        (fun r => timeValue r.timestamp == k)).Perm
        (rs.filter (fun r => timeValue r.timestamp == k)) :=
      (List.mergeSort_perm rs recordLe).filter _
    exact (hsub2.eq_of_length hperm.length_eq.symm).symm

/-- A concrete record list with a tie on the time value 5 for the sort
witness. -/
def demoRecords : List StepRecord :=
  [⟨"x", 1, .valid 5, .nullv⟩, ⟨"y", 2, .valid 3, .nullv⟩,
   ⟨"z", 3, .valid 5, .nullv⟩]

/-- C4 (witness): the chronological sort of the concrete list is a
permutation of it. -/
theorem c4_witness : (sortChronological demoRecords).Perm demoRecords :=
  (c4_sort_chronological demoRecords (by decide)).2.1

/-- The `reduce` sum equals the sum of the mapped step counts. -/
theorem totalSteps_eq_sum (rs : List StepRecord) :
    totalSteps rs = (rs.map (fun r => r.steps)).sum := by
  have key : ∀ (l : List StepRecord) (init : Int),
      l.foldl (fun sum item => sum + item.steps) init =
        init + (l.map (fun r => r.steps)).sum := by
    intro l
    induction l with
    | nil => intro init; simp
    | cons r t ih =>
        intro init
        simp [List.foldl_cons, ih, add_assoc]
  simpa using key rs 0

/-- C5: the statistics satisfy: count is the sequence length; total is
the sum of `steps` over all records and is 0 for the empty sequence;
average is `total / count`, which is the not-a-number value (and not an
error and not zero) when count is 0 and the exact quotient otherwise;
and the displayed average is the true average rounded half-up to the
nearest integer — `jsRound` never strays from the true value by more
than 1/2. -/
theorem c5_statistics (rs : List StepRecord) :
    (summarize rs).count = rs.length ∧
    (summarize rs).total = (rs.map (fun r => r.steps)).sum ∧
    (rs = [] → (summarize rs).total = 0) ∧
    (rs.length = 0 →
      (summarize rs).average = JSNum.nan ∧
      (summarize rs).average ≠ JSNum.val 0) ∧
    (rs.length ≠ 0 →
      (summarize rs).average =
        JSNum.val ((totalSteps rs : ℚ) / (rs.length : ℚ)) ∧
      displayedAverage rs =
        JSNum.val ((jsRound ((totalSteps rs : ℚ) / (rs.length : ℚ)) : ℚ))) ∧
    ∀ q : ℚ, |(jsRound q : ℚ) - q| ≤ 1 / 2 := by
  refine ⟨rfl, totalSteps_eq_sum rs, ?_, ?_, ?_, ?_⟩
  · intro h
    subst h
    rfl
  · intro h
    have hnil : rs = [] := List.length_eq_zero.mp h
    subst hnil
    exact ⟨rfl, by decide⟩
  · intro h
    have hq : ((rs.length : ℚ)) ≠ 0 := Nat.cast_ne_zero.mpr h
    constructor
    · simp [summarize, jsDiv, hq]
    · simp [displayedAverage, summarize, jsDiv, hq, mathRound]
  · intro q
    rw [abs_le]
    constructor
    · have h1 : (q + 1 / 2 : ℚ) < ⌊q + 1 / 2⌋ + 1 := Int.lt_floor_add_one _
      simp only [jsRound]
      linarith
    · have h2 : ((⌊q + 1 / 2⌋ : Int) : ℚ) ≤ q + 1 / 2 := Int.floor_le _
      simp only [jsRound]
      linarith

/-- A concrete two-record list for the statistics witness. -/
def demoRecords5 : List StepRecord :=
  [⟨"a", 10, .valid 0, .nullv⟩, ⟨"b", 15, .valid 1, .nullv⟩]

/-- C5 (witness): on the concrete two-record list the average is the
exact quotient of the total by the count. -/
theorem c5_witness :
    (summarize demoRecords5).average =
      JSNum.val ((totalSteps demoRecords5 : ℚ) / (demoRecords5.length : ℚ)) :=
  ((c5_statistics demoRecords5).2.2.2.2.1 (by decide)).1

/-- C6: on a chronologically sorted sequence the recent-activity view
has at most 5 records, equals the whole sequence reversed when the
sequence has at most 5 records, and is non-increasing in the time value,
so the most recent record appears first.  The embedding of
`slice(-5).reverse()` is a pure function of the input list: `slice`
copies, so the reversal never mutates the input sequence. -/
theorem c6_recent_activity (rs : List StepRecord)
    (h : rs.Pairwise (fun a b => timeValue a.timestamp ≤ timeValue b.timestamp)) :
    (recentActivity rs).length ≤ 5 ∧
    (rs.length ≤ 5 → recentActivity rs = rs.reverse) ∧
    (recentActivity rs).Pairwise
      (fun a b => timeValue b.timestamp ≤ timeValue a.timestamp) := by
  refine ⟨?_, ?_, ?_⟩
  · simp only [recentActivity, List.length_reverse, List.length_drop]
    omega
  · intro hle
    simp [recentActivity, Nat.sub_eq_zero_of_le hle]
  · rw [recentActivity, List.pairwise_reverse]
    exact List.Pairwise.sublist (List.drop_sublist _ _) h

/-- A concrete sorted six-record list for the recent-activity witness. -/
def demoSortedRecords : List StepRecord :=
  [⟨"r1", 1, .valid 10, .nullv⟩, ⟨"r2", 2, .valid 20, .nullv⟩,
   ⟨"r3", 3, .valid 30, .nullv⟩, ⟨"r4", 4, .valid 40, .nullv⟩,
   ⟨"r5", 5, .valid 50, .nullv⟩, ⟨"r6", 6, .valid 60, .nullv⟩]

/-- C6 (witness): on the concrete sorted list the recent-activity view
holds at most 5 records. -/
theorem c6_witness : (recentActivity demoSortedRecords).length ≤ 5 :=
  (c6_recent_activity demoSortedRecords (by decide)).1

/-- C7: the chart series built from a record sequence has a labels
sequence and a values sequence of the same length as the records, and at
every index the label is the formatted instant of that record while the
value is that record's step count. -/
theorem c7_chart_series (fmt : Instant → String) (rs : List StepRecord) :
    (toChartSeries fmt rs).labels.length = rs.length ∧
    (toChartSeries fmt rs).values.length = rs.length ∧
    ∀ i : Nat,
      (toChartSeries fmt rs).labels[i]? =
        (rs[i]?).map (fun r => fmt r.timestamp) ∧
      (toChartSeries fmt rs).values[i]? =
        (rs[i]?).map (fun r => r.steps) := by
  refine ⟨by simp [toChartSeries], by simp [toChartSeries], ?_⟩
  intro i
  constructor
  · simp [toChartSeries, List.getElem?_map]
  · simp [toChartSeries, List.getElem?_map]

/-- C9: a failed fetch leaves the previously held record set unchanged
and only sets the error and diagnostic messages; a successful query with
zero documents replaces the record set with the empty sequence; and a
successful query whose processing raises (the only other way a fetch ends
without new data) also leaves the record set unchanged — so the displayed
record set changes only on a successful fetch. -/
theorem c9_fetch_error_handling (parse : String → Instant) (now : Instant)
    (fmtFull : Instant → String) (email : String) (err : FetchError)
    (st : DashState) (docs : List RawDoc) :
    (fetchData parse now fmtFull (some email) st (.failure err)).stepData =
      st.stepData ∧
    (fetchData parse now fmtFull (some email) st (.failure err)).error =
      "Error fetching data: " ++ err.message ∧
    (fetchData parse now fmtFull (some email) st (.failure err)).debugInfo =
      "Error details: " ++ err.details ∧
    (fetchData parse now fmtFull (some email) st (.success [])).stepData =
      [] ∧
    (normalize parse now docs = none →
      (fetchData parse now fmtFull (some email) st (.success docs)).stepData =
        st.stepData) := by
  refine ⟨rfl, rfl, rfl, rfl, ?_⟩
  intro hnorm
  cases docs with
  | nil => simp [normalize] at hnorm
  | cons d rest =>
      simp [fetchData, hnorm]

/-- A concrete prior state for the fetch witness, already holding one
record. -/
def demoState : DashState :=
  { stepData := [⟨"s", 7, .valid 1, .nullv⟩], error := "", debugInfo := "",
    isLoading := false }

/-- C9 (witness): a successful query whose single document raises inside
normalization leaves the concrete prior record set unchanged. -/
theorem c9_witness :
    (fetchData demoParse demoNow demoFmt (some "user@example.com") demoState
      (.success [badToDateDoc])).stepData = demoState.stepData :=
  (c9_fetch_error_handling demoParse demoNow demoFmt "user@example.com"
    ⟨"boom", "x"⟩ demoState [badToDateDoc]).2.2.2.2 rfl

end StepCounter
